import Mathlib

/-!
Verification of the memory-mcp associative memory engine.

This file gives a shallow embedding, in Lean 4, of the core retrieval and
association algorithms of `memory_mcp` (store.py, association.py,
workspace.py, predictive.py, consolidation.py, vector.py) and proves the
behavioural properties stated about them.  Python floats are modelled as
rationals; the transcendental `2 ** x` used by time decay and the euclidean
norm used by cosine similarity are passed in as abstract function
parameters, so every definition stays executable.  Database tables are
modelled as association lists, and asynchronous callbacks as pure
functions over that state.
-/

namespace MemoryMcp

/-- A typed directed edge, from `MemoryLink` / `_parse_links` (store.py). -/
structure MemoryLink where
  target_id : String
  link_type : String
  created_at : String
  note : Option String
  deriving DecidableEq

/-- A stored memory row, from the `memories` table schema and
`_row_to_memory` (store.py), with the fields the verified operations read. -/
structure Memory where
  id : String
  content : String
  timestamp : String
  emotion : String
  importance : Int
  category : String
  access_count : Nat := 0
  last_accessed : String := ""
  linked_ids : List String := []
  tags : List String := []
  links : List MemoryLink := []
  novelty_score : ℚ := 0
  prediction_error : ℚ := 0
  activation_count : Nat := 0
  last_activated : String := ""
  coactivation_weights : List (String × ℚ) := []
  deriving DecidableEq

/-- `_fetch_memory_by_id` / `get_by_id`: point lookup in the memories table. -/
def fetchMemoryById (store : List Memory) (memoryId : String) : Option Memory :=
  store.find? (fun m => m.id = memoryId)

/-- `MemoryStore.save` (store.py): the id and timestamp are generated
effectfully in Python, so they are parameters here; the importance clamp and
the inserted row are translated verbatim. -/
def save (store : List Memory) (memoryId timestamp : String)
    (content : String) (emotion : String) (importance : Int) (category : String)
    (tags : List String) : Memory × List Memory :=
  let importance := max 1 (min 5 importance)
  let memory : Memory :=
    { id := memoryId, content := content, timestamp := timestamp,
      emotion := emotion, importance := importance, category := category,
      tags := tags }
  (memory, store ++ [memory])

/-- C9: `save` stores a memory whose importance lies in [1,5], clamping
out-of-range inputs rather than rejecting them; `save(importance=0)` stores
importance 1 and `save(importance=10)` stores importance 5, and the saved
memory is persisted in the store. -/
theorem save_importance_clamped (store : List Memory)
    (memoryId timestamp content emotion category : String) (tags : List String)
    (importance : Int) :
    (1 ≤ (save store memoryId timestamp content emotion importance category tags).1.importance
      ∧ (save store memoryId timestamp content emotion importance category tags).1.importance ≤ 5)
    ∧ (save store memoryId timestamp content emotion importance category tags).1
        ∈ (save store memoryId timestamp content emotion importance category tags).2
    ∧ (save store memoryId timestamp content emotion 0 category tags).1.importance = 1
    ∧ (save store memoryId timestamp content emotion 10 category tags).1.importance = 5 := by
  refine ⟨⟨le_max_left _ _, ?_⟩, ?_, rfl, rfl⟩
  · simp only [save, max_le_iff]
    exact ⟨by norm_num, min_le_left _ _⟩
  · simp [save]

/-! ## Coactivation table and `bump_coactivation` (store.py) -/

/-- The `coactivation` table: `(source_id, target_id, weight)` rows keyed by
the first two components (the SQL primary key). -/
abbrev CoactTable := List (String × String × ℚ)

/-- `SELECT weight FROM coactivation WHERE source_id = ? AND target_id = ?`. -/
def lookupWeight (tbl : CoactTable) (s t : String) : Option ℚ :=
  (tbl.find? (fun e => e.1 = s && e.2.1 = t)).map (fun e => e.2.2)

/-- `INSERT ... ON CONFLICT(source_id, target_id) DO UPDATE SET weight`. -/
def upsertWeight : CoactTable → String → String → ℚ → CoactTable
  | [], s, t, w => [(s, t, w)]
  | e :: es, s, t, w =>
    if e.1 = s ∧ e.2.1 = t then (s, t, w) :: es else e :: upsertWeight es s t w

/-- `MemoryStore.bump_coactivation` (store.py): checks both endpoints exist,
clamps the delta, then for each of the two directed rows reads the current
weight (the second read sees the first write) and upserts the clamped sum. -/
def bump_coactivation (store : List Memory) (tbl : CoactTable)
    (sourceId targetId : String) (delta : ℚ) : Bool × CoactTable :=
  if (fetchMemoryById store sourceId).isNone || (fetchMemoryById store targetId).isNone then
    (false, tbl)
  else
    let d := max 0 (min 1 delta)
    let w1 := (lookupWeight tbl sourceId targetId).getD 0
    let tbl1 := upsertWeight tbl sourceId targetId (max 0 (min 1 (w1 + d)))
    let w2 := (lookupWeight tbl1 targetId sourceId).getD 0
    let tbl2 := upsertWeight tbl1 targetId sourceId (max 0 (min 1 (w2 + d)))
    (true, tbl2)

theorem lookupWeight_upsert_same (tbl : CoactTable) (s t : String) (w : ℚ) :
    lookupWeight (upsertWeight tbl s t w) s t = some w := by
  induction tbl with
  | nil => simp [upsertWeight, lookupWeight]
  | cons e es ih =>
    by_cases h : e.1 = s ∧ e.2.1 = t
    · simp [upsertWeight, lookupWeight, h, List.find?]
    · rw [upsertWeight, if_neg h]
      rw [lookupWeight, List.find?]
      have hb : (e.1 = s && e.2.1 = t) = false := by
        rcases not_and_or.mp h with h1 | h1 <;> simp [h1]
      rw [hb]
      exact ih

theorem lookupWeight_upsert_ne (tbl : CoactTable) (s t s' t' : String) (w : ℚ)
    (hne : ¬ (s' = s ∧ t' = t)) :
    lookupWeight (upsertWeight tbl s t w) s' t' = lookupWeight tbl s' t' := by
  induction tbl with
  | nil =>
    have hb : (s = s' && t = t') = false := by
      rcases not_and_or.mp hne with h1 | h1 <;> simp <;> intro he
      · exact absurd he.symm h1
      · intro ht; exact absurd ht.symm h1
    simp [upsertWeight, lookupWeight, List.find?, hb]
  | cons e es ih =>
    by_cases h : e.1 = s ∧ e.2.1 = t
    · rw [upsertWeight, if_pos h]
      rw [lookupWeight, List.find?, lookupWeight, List.find?]
      have hb1 : (s = s' && t = t') = false := by
        rcases not_and_or.mp hne with h1 | h1
        · simp; intro he; exact absurd he.symm h1
        · simp; intro _ ht; exact absurd ht.symm h1
      have hb2 : (e.1 = s' && e.2.1 = t') = false := by
        rcases not_and_or.mp hne with h1 | h1
        · simp; intro he; exact absurd (h.1.symm.trans he) (fun hh => h1 hh.symm)
        · simp; intro _ ht; exact absurd (h.2.symm.trans ht) (fun hh => h1 hh.symm)
      simp only [hb1, hb2]
    · rw [upsertWeight, if_neg h]
      rw [lookupWeight, List.find?, lookupWeight, List.find?]
      cases hb : (e.1 = s' && e.2.1 = t')
      · exact ih
      · rfl

theorem lookupWeight_nonneg (tbl : CoactTable) (s t : String)
    (hnn : ∀ e ∈ tbl, 0 ≤ e.2.2) : 0 ≤ (lookupWeight tbl s t).getD 0 := by
  unfold lookupWeight
  cases h : tbl.find? (fun e => e.1 = s && e.2.1 = t) with
  | none => simp
  | some e => simpa using hnn e (List.mem_of_find?_eq_some h)

theorem upsertWeight_nonneg (tbl : CoactTable) (s t : String) (w : ℚ)
    (hnn : ∀ e ∈ tbl, 0 ≤ e.2.2) (hw : 0 ≤ w) :
    ∀ e ∈ upsertWeight tbl s t w, 0 ≤ e.2.2 := by
  induction tbl with
  | nil => intro e he; simp [upsertWeight] at he; simp [he, hw]
  | cons x xs ih =>
    intro e he
    by_cases h : x.1 = s ∧ x.2.1 = t
    · rw [upsertWeight, if_pos h] at he
      rcases List.mem_cons.mp he with he | he
      · simp [he, hw]
      · exact hnn e (List.mem_cons_of_mem x he)
    · rw [upsertWeight, if_neg h] at he
      rcases List.mem_cons.mp he with he | he
      · exact he ▸ hnn x (List.mem_cons_self x xs)
      · exact ih (fun y hy => hnn y (List.mem_cons_of_mem x hy)) e he

theorem clamp01_bounds (x : ℚ) : 0 ≤ max 0 (min 1 x) ∧ max 0 (min 1 x) ≤ 1 :=
  ⟨le_max_left 0 _, max_le (by norm_num) (min_le_left 1 x)⟩

theorem clamp01_lower (x : ℚ) (hx : 0 ≤ x) : (3 : ℚ)/10 ≤ max 0 (min 1 (x + 3/10)) := by
  have h1 : (3 : ℚ)/10 ≤ min 1 (x + 3/10) :=
    le_min (by norm_num) (by linarith)
  exact h1.trans (le_max_right 0 _)

/-- C3: for existing ids, `bump_coactivation` leaves `weight(A→B)` equal to
`weight(B→A)`, both clamped to `[0,1]` (with `delta = 0.3` both lie in
`[0.3, 1]`); on a missing id it returns `false` and leaves every coactivation
row unchanged.  The pre-state is assumed symmetric with weights in the range
the table's CHECK constraint enforces. -/
theorem bump_coactivation_symmetric (store : List Memory) (tbl : CoactTable)
    (a b : String) (delta : ℚ)
    (hnn : ∀ e ∈ tbl, 0 ≤ e.2.2)
    (hsym : lookupWeight tbl a b = lookupWeight tbl b a) :
    ((fetchMemoryById store a).isSome = true → (fetchMemoryById store b).isSome = true →
      (bump_coactivation store tbl a b delta).1 = true
      ∧ lookupWeight (bump_coactivation store tbl a b delta).2 a b
          = lookupWeight (bump_coactivation store tbl a b delta).2 b a
      ∧ (∃ w, lookupWeight (bump_coactivation store tbl a b delta).2 a b = some w
            ∧ 0 ≤ w ∧ w ≤ 1 ∧ (delta = 3/10 → 3/10 ≤ w)))
    ∧ (((fetchMemoryById store a).isNone = true ∨ (fetchMemoryById store b).isNone = true) →
        bump_coactivation store tbl a b delta = (false, tbl)) := by
  constructor
  · intro ha hb
    have hcond : ((fetchMemoryById store a).isNone || (fetchMemoryById store b).isNone) = false := by
      cases hA : fetchMemoryById store a with
      | none => rw [hA] at ha; exact absurd ha (by simp)
      | some x =>
        cases hB : fetchMemoryById store b with
        | none => rw [hB] at hb; exact absurd hb (by simp)
        | some y => simp
    rw [bump_coactivation, if_neg (by simp [hcond])]
    set d := max 0 (min 1 delta) with hd
    set w1 := (lookupWeight tbl a b).getD 0 with hw1
    set tbl1 := upsertWeight tbl a b (max 0 (min 1 (w1 + d))) with htbl1
    set w2 := (lookupWeight tbl1 b a).getD 0 with hw2
    set tbl2 := upsertWeight tbl1 b a (max 0 (min 1 (w2 + d))) with htbl2
    have hw1nn : 0 ≤ w1 := lookupWeight_nonneg tbl a b hnn
    have hdnn : 0 ≤ d := le_max_left 0 _
    rcases eq_or_ne a b with hab | hab
    · subst hab
    -- both directed rows are the same (a, a) key: the second write wins
      have hlook2 : lookupWeight tbl2 a a = some (max 0 (min 1 (w2 + d))) :=
        lookupWeight_upsert_same tbl1 a a _
      refine ⟨rfl, rfl, max 0 (min 1 (w2 + d)), hlook2, (clamp01_bounds _).1,
        (clamp01_bounds _).2, ?_⟩
      intro hδ
      have hw2nn : 0 ≤ w2 := by
        rw [hw2]
        exact lookupWeight_nonneg tbl1 a a
          (upsertWeight_nonneg tbl a a _ hnn (clamp01_bounds _).1)
      have hd3 : d = 3/10 := by rw [hd, hδ]; norm_num
      rw [hd3] at *
      exact clamp01_lower w2 hw2nn
    · have hne1 : ¬ (b = a ∧ a = b) := fun h => hab h.2
      have hne2 : ¬ (a = b ∧ b = a) := fun h => hab h.1
      have hw2eq : w2 = w1 := by
        rw [hw2, htbl1, lookupWeight_upsert_ne tbl a b b a _ hne1, ← hsym, ← hw1]
      have hlookab : lookupWeight tbl2 a b = some (max 0 (min 1 (w1 + d))) := by
        rw [htbl2, lookupWeight_upsert_ne tbl1 b a a b _ hne2, htbl1]
        exact lookupWeight_upsert_same tbl a b _
      have hlookba : lookupWeight tbl2 b a = some (max 0 (min 1 (w1 + d))) := by
        rw [htbl2, hw2eq]
        exact lookupWeight_upsert_same tbl1 b a _
      refine ⟨rfl, by rw [hlookab, hlookba], max 0 (min 1 (w1 + d)), hlookab,
        (clamp01_bounds _).1, (clamp01_bounds _).2, ?_⟩
      intro hδ
      have hd3 : d = 3/10 := by rw [hd, hδ]; norm_num
      rw [hd3]
      exact clamp01_lower w1 hw1nn
  · intro h
    have hcond : ((fetchMemoryById store a).isNone || (fetchMemoryById store b).isNone) = true := by
      rcases h with h | h <;> simp [h]
    rw [bump_coactivation, if_pos (by simp [hcond])]

/-- A neutral three-importance memory used in concrete instances. -/
def memNeutral (i : String) : Memory :=
  { id := i, content := "memory " ++ i, timestamp := "2026-01-01T00:00:00",
    emotion := "neutral", importance := 3, category := "daily" }

/-- Witness for C3 at a concrete two-memory store, empty table, delta 0.3. -/
theorem bump_coactivation_symmetric_witness :
    (bump_coactivation [memNeutral "a", memNeutral "b"] [] "a" "b" (3/10)).1 = true
    ∧ lookupWeight (bump_coactivation [memNeutral "a", memNeutral "b"] [] "a" "b" (3/10)).2 "a" "b"
        = lookupWeight (bump_coactivation [memNeutral "a", memNeutral "b"] [] "a" "b" (3/10)).2 "b" "a"
    ∧ (∃ w, lookupWeight (bump_coactivation [memNeutral "a", memNeutral "b"] [] "a" "b" (3/10)).2 "a" "b" = some w
          ∧ 0 ≤ w ∧ w ≤ 1 ∧ ((3 : ℚ)/10 = 3/10 → 3/10 ≤ w)) :=
  (bump_coactivation_symmetric [memNeutral "a", memNeutral "b"] [] "a" "b" (3/10)
      (fun e he => absurd he (List.not_mem_nil e)) rfl).1 (by decide) (by decide)

/-! ## Causal links: `add_causal_link` and `get_causal_chain` (store.py) -/

/-- `update_memory_fields(memory_id, links=...)`: rewrite the links column of
the row whose id matches. -/
def updateLinks (store : List Memory) (memoryId : String) (links : List MemoryLink) :
    List Memory :=
  store.map (fun m => if m.id = memoryId then { m with links := links } else m)

/-- `MemoryStore.add_causal_link` (store.py): `ValueError` when either
endpoint is absent (modelled as `Except.error`, before any write), early
return when an identical `(source, target, type)` link already exists,
otherwise append the new link to the source row. -/
def add_causal_link (store : List Memory) (sourceId targetId linkType createdAt : String)
    (note : Option String) : Except String (List Memory) :=
  match fetchMemoryById store sourceId with
  | none => .error ("Source memory not found: " ++ sourceId)
  | some sourceMemory =>
    match fetchMemoryById store targetId with
    | none => .error ("Target memory not found: " ++ targetId)
    | some _ =>
      let newLink : MemoryLink :=
        { target_id := targetId, link_type := linkType,
          created_at := createdAt, note := note }
      if sourceMemory.links.any (fun l => l.target_id = targetId && l.link_type = linkType) then
        .ok store
      else
        .ok (updateLinks store sourceId (sourceMemory.links ++ [newLink]))

/-- C5: `add_causal_link` fails with a not-found error when either endpoint
is absent (before any write, so nothing is added), and adding a link whose
`(source, target, type)` triple already exists is a no-op leaving the whole
store — in particular the source memory's links — unchanged. -/
theorem add_causal_link_not_found_and_idempotent (store : List Memory)
    (sourceId targetId linkType createdAt : String) (note : Option String) :
    ((fetchMemoryById store sourceId = none ∨ fetchMemoryById store targetId = none) →
      ∃ e, add_causal_link store sourceId targetId linkType createdAt note = .error e)
    ∧ (∀ src, fetchMemoryById store sourceId = some src →
        (fetchMemoryById store targetId).isSome = true →
        src.links.any (fun l => l.target_id = targetId && l.link_type = linkType) = true →
        add_causal_link store sourceId targetId linkType createdAt note = .ok store) := by
  constructor
  · intro h
    rcases h with h | h
    · exact ⟨_, by rw [add_causal_link, h]⟩
    · cases hs : fetchMemoryById store sourceId with
      | none => exact ⟨_, by rw [add_causal_link, hs]⟩
      | some src => exact ⟨_, by rw [add_causal_link, hs, h]⟩
  · intro src hs ht hdup
    cases htv : fetchMemoryById store targetId with
    | none => rw [htv] at ht; exact absurd ht (by simp)
    | some tgt => simp [add_causal_link, hs, htv, hdup]

/-- A concrete two-memory store where "a" already links to "b". -/
def linkedDemoStore : List Memory :=
  [{ memNeutral "a" with
      links := [{ target_id := "b", link_type := "caused_by",
                  created_at := "2026-01-01T00:00:00", note := none }] },
   memNeutral "b"]

/-- Witness for C5: on `linkedDemoStore`, a missing target errors and a
duplicate `(source, target, type)` triple is a no-op. -/
theorem add_causal_link_witness :
    (∃ e, add_causal_link linkedDemoStore "a" "zz" "caused_by" "2026-01-02T00:00:00" none
        = .error e)
    ∧ add_causal_link linkedDemoStore "a" "b" "caused_by" "2026-01-02T00:00:00" none
        = .ok linkedDemoStore := by
  have h := add_causal_link_not_found_and_idempotent linkedDemoStore "a" "zz" "caused_by"
    "2026-01-02T00:00:00" none
  have h2 := add_causal_link_not_found_and_idempotent linkedDemoStore "a" "b" "caused_by"
    "2026-01-02T00:00:00" none
  exact ⟨h.1 (Or.inr (by decide)),
    h2.2 ((linkedDemoStore.head?).get (by decide)) (by decide) (by decide) (by decide)⟩

/-- The body of `get_causal_chain`'s loop over one frontier id: skip ids
already visited, mark the id visited, then scan its links of the requested
types, collecting `(target, link_type)` hits whose target exists and is not
yet visited, together with the next-level ids. -/
def chainVisit (store : List Memory) (targetTypes : List String)
    (acc : List String × List (Memory × String) × List String) (memId : String) :
    List String × List (Memory × String) × List String :=
  let (visited, result, next) := acc
  if memId ∈ visited then acc
  else
    let visited := visited ++ [memId]
    match fetchMemoryById store memId with
    | none => (visited, result, next)
    | some memory =>
      memory.links.foldl
        (fun (a : List String × List (Memory × String) × List String) link =>
          let (v, r, n) := a
          if link.link_type ∈ targetTypes then
            match fetchMemoryById store link.target_id with
            | some target =>
              if link.target_id ∈ v then (v, r, n)
              else (v, r ++ [(target, link.link_type)], n ++ [link.target_id])
            | none => (v, r, n)
          else (v, r, n))
        (visited, result, next)

/-- The depth-bounded BFS of `get_causal_chain`: at most `maxDepth` levels,
stopping early when a level produces no next ids. -/
def chainGo (store : List Memory) (targetTypes : List String) :
    Nat → List String → List String → List (Memory × String) → List (Memory × String)
  | 0, _, _, result => result
  | depth + 1, current, visited, result =>
    let s := current.foldl (chainVisit store targetTypes) (visited, result, [])
    if s.2.2 = [] then s.2.1 else chainGo store targetTypes depth s.2.2 s.1 s.2.1

/-- `MemoryStore.get_causal_chain` (store.py): clamp the depth to [1,5],
reject a direction that is neither "backward" nor "forward", then run the
visited-guarded BFS over `caused_by` (backward) or `leads_to` (forward)
links.  Totality of this definition is the termination claim: the traversal
is a structurally bounded loop. -/
def get_causal_chain (store : List Memory) (memoryId direction : String)
    (maxDepth : Int) : Except String (List (Memory × String)) :=
  let md := (max 1 (min 5 maxDepth)).toNat
  if direction = "backward" then .ok (chainGo store ["caused_by"] md [memoryId] [] [])
  else if direction = "forward" then .ok (chainGo store ["leads_to"] md [memoryId] [] [])
  else .error ("Invalid direction: " ++ direction)

/-- A causal chain A-caused_by→B-caused_by→C with the cycle
B-caused_by→A injected. -/
def memCausalB : Memory :=
  { memNeutral "B" with
      links := [{ target_id := "C", link_type := "caused_by",
                  created_at := "2026-01-01T00:00:00", note := none },
                { target_id := "A", link_type := "caused_by",
                  created_at := "2026-01-01T00:00:00", note := none }] }

def cyclicCausalStore : List Memory :=
  [{ memNeutral "A" with
      links := [{ target_id := "B", link_type := "caused_by",
                  created_at := "2026-01-01T00:00:00", note := none }] },
   memCausalB,
   memNeutral "C"]

/-- C7: `get_causal_chain` rejects an invalid traversal direction with an
error, and on the cyclic graph A-caused_by→B-caused_by→C with the injected
cycle back to A it terminates (the definition is total) and returns exactly
[B, C], visiting no node twice. -/
theorem get_causal_chain_cycle_safe :
    (∀ (store : List Memory) (memoryId direction : String) (maxDepth : Int),
      direction ≠ "backward" → direction ≠ "forward" →
      ∃ e, get_causal_chain store memoryId direction maxDepth = .error e)
    ∧ get_causal_chain cyclicCausalStore "A" "backward" 5
        = .ok [(memCausalB, "caused_by"), (memNeutral "C", "caused_by")] := by
  constructor
  · intro store memoryId direction maxDepth hb hf
    exact ⟨_, by rw [get_causal_chain, if_neg hb, if_neg hf]⟩
  · rfl

/-- Witness for C7: the invalid direction "sideways" errors on the concrete
cyclic store, and the backward chain from A is [B, C]. -/
theorem get_causal_chain_cycle_safe_witness :
    (∃ e, get_causal_chain cyclicCausalStore "A" "sideways" 5 = .error e)
    ∧ get_causal_chain cyclicCausalStore "A" "backward" 5
        = .ok [(memCausalB, "caused_by"), (memNeutral "C", "caused_by")] :=
  ⟨get_causal_chain_cycle_safe.1 cyclicCausalStore "A" "sideways" 5
      (by decide) (by decide),
   get_causal_chain_cycle_safe.2⟩

/-! ## `AssociationEngine` (association.py) -/

/-- Stable insert for a descending sort: an element moves past earlier ones
only when their key is strictly greater, so equal keys keep insertion order,
as Python's stable `sorted(..., reverse=True)` does. -/
def insertDescBy {α : Type} (key : α → ℚ) (x : α) : List α → List α
  | [] => [x]
  | y :: ys => if key x < key y then y :: insertDescBy key x ys else x :: y :: ys

/-- Stable sort, descending by `key`. -/
def sortDescBy {α : Type} (key : α → ℚ) : List α → List α
  | [] => []
  | x :: xs => insertDescBy key x (sortDescBy key xs)

/-- The dedup dict of `_neighbor_candidates`: first-occurrence order, keeping
the maximum weight per target id. -/
def dedupMax (weighted : List (String × ℚ)) : List (String × ℚ) :=
  weighted.foldl
    (fun acc p =>
      if acc.any (fun q => q.1 = p.1) then
        acc.map (fun q => if q.1 = p.1 ∧ q.2 < p.2 then (q.1, p.2) else q)
      else acc ++ [p])
    []

/-- Typed-link base confidence in `_neighbor_candidates`. -/
def linkBase (linkType : String) : ℚ :=
  if linkType = "similar" then 1
  else if linkType = "related" ∨ linkType = "caused_by" ∨ linkType = "leads_to" then 17/20
  else 4/5

/-- `AssociationEngine._neighbor_candidates` (association.py): legacy links at
weight 1, typed links at their base confidence, clamped coactivation weights;
deduplicated keeping the max weight and sorted descending. -/
def neighbor_candidates (memory : Memory) : List String :=
  let weighted :=
    memory.linked_ids.map (fun i => (i, (1 : ℚ)))
    ++ memory.links.map (fun l => (l.target_id, linkBase l.link_type))
    ++ memory.coactivation_weights.map (fun p => (p.1, max 0 (min 1 p.2)))
  (sortDescBy (fun p => p.2) (dedupMax weighted)).map (fun p => p.1)

structure AssociationDiagnostics where
  branches_used : Nat
  depth_used : Nat
  traversed_edges : Nat
  expanded_nodes : Nat
  avg_branching_factor : ℚ
  deriving DecidableEq

/-- The `while frontier` loop of `AssociationEngine.spread`, with explicit
fuel (`none` = fuel exhausted; the results proved below are all `some`, so
the loop genuinely finished).  State: frontier of (memory, depth), visited
ids, expanded memories, traversed edge count, per-node branching counts, and
the number of `fetch_memory_by_id` invocations awaited — the instrumentation
this file adds to observe the fetch pattern. -/
def spreadLoop (store : List Memory) (maxBranches maxDepth : Nat) :
    Nat → List (Memory × Nat) → List String → List Memory → Nat → List Nat → Nat →
    Option (List Memory × Nat × List Nat × Nat)
  | 0, _, _, _, _, _, _ => none
  | _ + 1, [], _, expanded, traversed, counts, fetches =>
      some (expanded, traversed, counts, fetches)
  | fuel + 1, (current, depth) :: rest, visited, expanded, traversed, counts, fetches =>
    if maxDepth ≤ depth then
      spreadLoop store maxBranches maxDepth fuel rest visited expanded traversed counts fetches
    else
      let neighbors := (neighbor_candidates current).take maxBranches
      let counts := counts ++ [neighbors.length]
      let s := neighbors.foldl
        (fun (a : List String × List Memory × List (Memory × Nat) × Nat × Nat) nid =>
          let (v, e, f, t, fc) := a
          let t := t + 1
          if nid ∈ v then (v, e, f, t, fc)
          else
            match fetchMemoryById store nid with
            | none => (v, e, f, t, fc + 1)
            | some nb => (v ++ [nid], e ++ [nb], f ++ [(nb, depth + 1)], t, fc + 1))
        (visited, expanded, ([] : List (Memory × Nat)), traversed, fetches)
      spreadLoop store maxBranches maxDepth fuel (rest ++ s.2.2.1) s.1 s.2.1 s.2.2.2.1
        counts s.2.2.2.2

/-- `AssociationEngine.spread` (association.py): per-edge fetching through the
`fetch_memory_by_id` callback (modelled as lookup in `store`), guarded by the
visited set; returns the expanded memories, the diagnostics, and the number
of fetch invocations. -/
def spread (store : List Memory) (seeds : List Memory) (maxBranches maxDepth : Nat) :
    Option (List Memory × AssociationDiagnostics × Nat) :=
  if seeds = [] then some ([], ⟨maxBranches, maxDepth, 0, 0, 0⟩, 0)
  else
    let fuel := (seeds.length + store.length) * (maxDepth + 2) + 1
    match spreadLoop store maxBranches maxDepth fuel (seeds.map (fun m => (m, 0)))
        (seeds.map (fun m => m.id)) [] 0 [] 0 with
    | none => none
    | some (expanded, traversed, counts, fetches) =>
      let avg : ℚ := if counts = [] then 0 else (counts.sum : ℚ) / (counts.length : ℚ)
      some (expanded, ⟨maxBranches, maxDepth, traversed, expanded.length, avg⟩, fetches)

def seedA : Memory := { memNeutral "A" with linked_ids := ["B", "C"] }

def seedAtoC : Memory := { memNeutral "A" with linked_ids := ["C"] }

def seedBtoC : Memory := { memNeutral "B" with linked_ids := ["C"] }

/-- C1 (code evaluated at the failing input): at depth 1 with a single seed
A→{B,C}, `spread` awaits `fetch_memory_by_id` twice — once per edge — not one
batched fetch for the whole depth level; with seeds A→{C} and B→{C} the shared
node C is fetched exactly once and counted as exactly one expanded node. -/
theorem spread_fetches_per_edge_not_batched :
    ((spread [memNeutral "B", memNeutral "C"] [seedA] 5 1).map
        (fun r => (r.1, r.2.1.traversed_edges, r.2.1.expanded_nodes, r.2.2)))
      = some ([memNeutral "B", memNeutral "C"], 2, 2, 2)
    ∧ ((spread [memNeutral "C"] [seedAtoC, seedBtoC] 5 1).map
        (fun r => (r.1, r.2.1.traversed_edges, r.2.1.expanded_nodes, r.2.2)))
      = some ([memNeutral "C"], 2, 1, 1) := by
  constructor <;> decide

/-! ## Cosine similarity (vector.py) and `_vector_search` (store.py) -/

/-- The `1e-10` epsilon added to both norms in `cosine_similarity`. -/
def normEps : ℚ := 1 / 10 ^ 10

def dotList (xs ys : List ℚ) : ℚ := (List.zipWith (· * ·) xs ys).sum

/-- One row of `cosine_similarity` (vector.py): `c_norm @ q_norm` where each
vector is divided elementwise by its norm plus epsilon.  `np.linalg.norm` is
an abstract parameter `nrm` (its exact value is irrational in general). -/
def cosineSimRow (nrm : List ℚ → ℚ) (query : List ℚ) (row : List ℚ) : ℚ :=
  dotList (row.map (fun x => x / (nrm row + normEps)))
          (query.map (fun x => x / (nrm query + normEps)))

/-- `cosine_similarity(query, corpus)` (vector.py). -/
def cosine_similarity (nrm : List ℚ → ℚ) (query : List ℚ)
    (corpus : List (List ℚ)) : List ℚ :=
  corpus.map (cosineSimRow nrm query)

theorem dotList_zero_right (xs ys : List ℚ) (h : ∀ y ∈ ys, y = 0) :
    dotList xs ys = 0 := by
  induction xs generalizing ys with
  | nil => cases ys <;> simp [dotList]
  | cons x xs ih =>
    cases ys with
    | nil => simp [dotList]
    | cons y ys =>
      have hy := h y (List.mem_cons_self y ys)
      have hrest := ih ys (fun z hz => h z (List.mem_cons_of_mem y hz))
      simp only [dotList, List.zipWith_cons_cons, List.sum_cons, hy, mul_zero, zero_add]
      exact hrest

theorem dotList_zero_left (xs ys : List ℚ) (h : ∀ x ∈ xs, x = 0) :
    dotList xs ys = 0 := by
  induction xs generalizing ys with
  | nil => simp [dotList]
  | cons x xs ih =>
    cases ys with
    | nil => simp [dotList]
    | cons y ys =>
      have hx := h x (List.mem_cons_self x xs)
      have hrest := ih ys (fun z hz => h z (List.mem_cons_of_mem x hz))
      simp only [dotList, List.zipWith_cons_cons, List.sum_cons, hx, zero_mul, zero_add]
      exact hrest

/-- C10: with both norms offset by the positive epsilon `1e-10`,
`cosine_similarity` never divides by zero — both denominators are strictly
positive for every input — and an all-zero query or an all-zero stored row
yields similarity exactly 0 rather than an undefined value, so the distances
`1 - similarity` that `_vector_search` derives stay well-defined. -/
theorem cosine_similarity_total (nrm : List ℚ → ℚ) (query : List ℚ)
    (corpus : List (List ℚ)) (hnn : ∀ v, 0 ≤ nrm v) :
    (0 < nrm query + normEps ∧ ∀ row ∈ corpus, 0 < nrm row + normEps)
    ∧ ((∀ x ∈ query, x = 0) → ∀ s ∈ cosine_similarity nrm query corpus, s = 0)
    ∧ (∀ row ∈ corpus, (∀ x ∈ row, x = 0) →
        cosineSimRow nrm query row = 0) := by
  have heps : (0 : ℚ) < normEps := by norm_num [normEps]
  refine ⟨⟨?_, fun row _ => ?_⟩, ?_, ?_⟩
  · have := hnn query; linarith
  · have := hnn row; linarith
  · intro hq s hs
    rcases List.mem_map.mp hs with ⟨row, _, rfl⟩
    refine dotList_zero_right _ _ ?_
    intro y hy
    rcases List.mem_map.mp hy with ⟨x, hx, rfl⟩
    rw [hq x hx, zero_div]
  · intro row _ hrow
    refine dotList_zero_left _ _ ?_
    intro y hy
    rcases List.mem_map.mp hy with ⟨x, hx, rfl⟩
    rw [hrow x hx, zero_div]

/-- Witness for C10 at `nrm = 0`, query `[0, 0]`, corpus `[[1, 2]]`. -/
theorem cosine_similarity_total_witness :
    (0 < (fun _ : List ℚ => (0 : ℚ)) [(0 : ℚ), 0] + normEps
      ∧ ∀ row ∈ [[(1 : ℚ), 2]], 0 < (fun _ : List ℚ => (0 : ℚ)) row + normEps)
    ∧ ((∀ x ∈ [(0 : ℚ), 0], x = 0) →
        ∀ s ∈ cosine_similarity (fun _ => 0) [0, 0] [[1, 2]], s = 0)
    ∧ (∀ row ∈ [[(1 : ℚ), 2]], (∀ x ∈ row, x = 0) →
        cosineSimRow (fun _ => 0) [0, 0] row = 0) :=
  cosine_similarity_total (fun _ => 0) [0, 0] [[1, 2]] (fun _ => le_refl 0)

theorem mem_insertDescBy {α : Type} (key : α → ℚ) (x a : α) (l : List α) :
    a ∈ insertDescBy key x l ↔ a = x ∨ a ∈ l := by
  induction l with
  | nil => simp [insertDescBy]
  | cons y ys ih =>
    rw [insertDescBy]
    by_cases h : key x < key y
    · rw [if_pos h]
      simp only [List.mem_cons, ih]
      tauto
    · rw [if_neg h]
      simp only [List.mem_cons]

theorem pairwise_insertDescBy {α : Type} (key : α → ℚ) (x : α) (l : List α)
    (h : l.Pairwise (fun a b => key b ≤ key a)) :
    (insertDescBy key x l).Pairwise (fun a b => key b ≤ key a) := by
  induction l with
  | nil => simp [insertDescBy]
  | cons y ys ih =>
    rw [insertDescBy]
    rcases List.pairwise_cons.mp h with ⟨hy, hys⟩
    by_cases hxy : key x < key y
    · rw [if_pos hxy]
      refine List.pairwise_cons.mpr ⟨?_, ih hys⟩
      intro z hz
      rcases (mem_insertDescBy key x z ys).mp hz with rfl | hz
      · exact le_of_lt hxy
      · exact hy z hz
    · rw [if_neg hxy]
      refine List.pairwise_cons.mpr ⟨?_, h⟩
      intro z hz
      rcases List.mem_cons.mp hz with rfl | hz
      · exact le_of_not_lt hxy
      · exact (hy z hz).trans (le_of_not_lt hxy)

theorem mem_sortDescBy {α : Type} (key : α → ℚ) (a : α) (l : List α) :
    a ∈ sortDescBy key l ↔ a ∈ l := by
  induction l with
  | nil => simp [sortDescBy]
  | cons x xs ih =>
    rw [sortDescBy, mem_insertDescBy, ih, List.mem_cons]

theorem pairwise_sortDescBy {α : Type} (key : α → ℚ) (l : List α) :
    (sortDescBy key l).Pairwise (fun a b => key b ≤ key a) := by
  induction l with
  | nil => simp [sortDescBy]
  | cons x xs ih => exact pairwise_insertDescBy key x _ ih

/-- A Python-truthy string filter: `None` and `""` match everything. -/
def passStrFilter (filter : Option String) (field : String) : Bool :=
  match filter with
  | none => true
  | some s => if s = "" then true else field = s

/-- The `WHERE` clause `_vector_search` builds: a conjunction over
emotion/category/time-range conditions (timestamps compare as ISO strings,
as the SQL TEXT comparison does). -/
def matchesFilters (emotionFilter categoryFilter dateFrom dateTo : Option String)
    (m : Memory) : Bool :=
  passStrFilter emotionFilter m.emotion
  && passStrFilter categoryFilter m.category
  && (match dateFrom with
      | none => true
      | some s => if s = "" then true else decide (s ≤ m.timestamp))
  && (match dateTo with
      | none => true
      | some s => if s = "" then true else decide (m.timestamp ≤ s))

/-- `MemoryStore._vector_search` / `search` (store.py): filter, score every
remaining row by cosine similarity, rank by similarity descending (Python's
stable `sorted(..., reverse=True)`), truncate to `n_results`, and report
each hit with distance `1 − similarity`. -/
def vector_search (nrm : List ℚ → ℚ) (queryVec : List ℚ)
    (rows : List (Memory × List ℚ)) (nResults : Nat)
    (emotionFilter categoryFilter dateFrom dateTo : Option String) :
    List (Memory × ℚ) :=
  let filtered := rows.filter
    (fun r => matchesFilters emotionFilter categoryFilter dateFrom dateTo r.1)
  if filtered = [] then []
  else
    let scored := filtered.map (fun r => (r, cosineSimRow nrm queryVec r.2))
    let ranked := (sortDescBy (fun p => p.2) scored).take nResults
    ranked.map (fun p => (p.1.1, 1 - p.2))

/-- C8: for every query, every filter combination and every stored corpus,
the result list of `search` is sorted by non-decreasing distance, and every
reported distance is `1 − cosine similarity` of the query embedding against
that row's stored embedding (the row passing all filters). -/
theorem vector_search_sorted_by_distance (nrm : List ℚ → ℚ) (queryVec : List ℚ)
    (rows : List (Memory × List ℚ)) (nResults : Nat)
    (emotionFilter categoryFilter dateFrom dateTo : Option String) :
    List.Pairwise (fun a b => a.2 ≤ b.2)
      (vector_search nrm queryVec rows nResults emotionFilter categoryFilter dateFrom dateTo)
    ∧ ∀ p ∈ vector_search nrm queryVec rows nResults emotionFilter categoryFilter dateFrom dateTo,
        ∃ r ∈ rows, matchesFilters emotionFilter categoryFilter dateFrom dateTo r.1 = true
          ∧ p.1 = r.1 ∧ p.2 = 1 - cosineSimRow nrm queryVec r.2 := by
  rw [vector_search]
  set filtered := rows.filter
    (fun r => matchesFilters emotionFilter categoryFilter dateFrom dateTo r.1) with hf
  by_cases hempty : filtered = []
  · simp [hempty]
  · rw [if_neg hempty]
    set scored := filtered.map (fun r => (r, cosineSimRow nrm queryVec r.2)) with hs
    constructor
    · have hsorted : (sortDescBy (fun p => p.2) scored).Pairwise
          (fun a b => b.2 ≤ a.2) := pairwise_sortDescBy _ _
      have htake : ((sortDescBy (fun p => p.2) scored).take nResults).Pairwise
          (fun a b => b.2 ≤ a.2) :=
        hsorted.sublist (List.take_sublist _ _)
      rw [List.pairwise_map]
      exact htake.imp (fun h => by dsimp only; linarith)
    · intro p hp
      rcases List.mem_map.mp hp with ⟨q, hq, rfl⟩
      have hq1 : q ∈ sortDescBy (fun p => p.2) scored :=
        (List.take_sublist _ _).mem hq
      have hq2 : q ∈ scored := (mem_sortDescBy _ _ _).mp hq1
      rcases List.mem_map.mp hq2 with ⟨r, hr, rfl⟩
      rcases List.mem_filter.mp (hf ▸ hr) with ⟨hrmem, hrfil⟩
      exact ⟨r, hrmem, hrfil, rfl, rfl⟩

/-! ## Scoring: `search_with_scoring` and its helpers (store.py) -/

/-- `EMOTION_BOOST_MAP` (store.py); unknown emotions default to 0. -/
def calculate_emotion_boost (emotion : String) : ℚ :=
  if emotion = "excited" then 2/5
  else if emotion = "surprised" then 7/20
  else if emotion = "moved" then 3/10
  else if emotion = "sad" then 1/4
  else if emotion = "happy" then 1/5
  else if emotion = "nostalgic" then 3/20
  else if emotion = "curious" then 1/10
  else if emotion = "neutral" then 0
  else 0

/-- `calculate_importance_boost` (store.py): `(clamped - 1) / 10`. -/
def calculate_importance_boost (importance : Int) : ℚ :=
  (((max 1 (min 5 importance) : Int) : ℚ) - 1) / 10

/-- `calculate_time_decay` (store.py).  The memory's age in seconds stands in
for the parsed timestamp (`none` = unparsable, giving decay 1.0); `pow2`
abstracts `math.pow(2, ·)`. -/
def calculate_time_decay (pow2 : ℚ → ℚ) (ageSeconds : Option ℚ)
    (halfLifeDays : ℚ) : ℚ :=
  match ageSeconds with
  | none => 1
  | some age =>
    if age < 0 then 1
    else max 0 (min 1 (pow2 (-(age / 86400 / halfLifeDays))))

/-- `calculate_final_score` (store.py): semantic distance plus a decay
penalty minus the emotion/importance boosts, floored at 0. -/
def calculate_final_score (semanticDistance timeDecay emotionBoost importanceBoost : ℚ)
    (semanticWeight decayWeight emotionWeight importanceWeight : ℚ) : ℚ :=
  max 0 (semanticDistance * semanticWeight + (1 - timeDecay) * decayWeight
    - (emotionBoost * emotionWeight + importanceBoost * importanceWeight))

structure ScoredMemory where
  memory : Memory
  semantic_distance : ℚ
  time_decay_factor : ℚ
  emotion_boost : ℚ
  importance_boost : ℚ
  final_score : ℚ
  deriving DecidableEq

/-- The per-candidate scoring step of `search_with_scoring` (store.py). -/
def scoreEntry (pow2 : ℚ → ℚ) (age : Memory → Option ℚ)
    (useTimeDecay useEmotionBoost : Bool) (halfLifeDays : ℚ)
    (pr : Memory × ℚ) : ScoredMemory :=
  let timeDecay := if useTimeDecay then calculate_time_decay pow2 (age pr.1) halfLifeDays else 1
  let emotionBoost := if useEmotionBoost then calculate_emotion_boost pr.1.emotion else 0
  let importanceBoost := calculate_importance_boost pr.1.importance
  { memory := pr.1, semantic_distance := pr.2, time_decay_factor := timeDecay,
    emotion_boost := emotionBoost, importance_boost := importanceBoost,
    final_score := calculate_final_score pr.2 timeDecay emotionBoost importanceBoost
      1 (3/10) (1/5) (1/5) }

/-- The Phase-9 hybrid boost of `search_with_scoring` (store.py): BM25 score
times 0.2 (the index is abstracted as the id-to-score function the built
index denotes), plus 0.15 when the query's phonetic reading exactly matches
the document's non-empty reading. -/
def bm25Boost (bm25Scores : String → ℚ) (reading : String → Option String)
    (query : String) (m : Memory) : ℚ :=
  let boost := bm25Scores m.id * (1/5)
  match reading query with
  | none => boost
  | some qr =>
    if qr = "" then boost
    else
      match reading m.content with
      | none => boost
      | some dr => if dr ≠ "" ∧ qr = dr then boost + 3/20 else boost

/-- Stable ascending sort by `key`: Python's stable `list.sort(key=...)`. -/
def sortAscBy {α : Type} (key : α → ℚ) : List α → List α :=
  sortDescBy (fun a => -(key a))

/-- `MemoryStore.search_with_scoring` (store.py): over-fetch
`min(n_results * 3, 50)` candidates from `_vector_search` (bound to the
query and filters as the function `vectorSearch`), score each, optionally
subtract the BM25/reading boost, sort ascending by final score and truncate
to `n_results`. -/
def search_with_scoring (vectorSearch : Nat → List (Memory × ℚ))
    (pow2 : ℚ → ℚ) (age : Memory → Option ℚ)
    (enableBm25 : Bool) (bm25Scores : String → ℚ) (reading : String → Option String)
    (query : String) (nResults : Nat) (useTimeDecay useEmotionBoost : Bool)
    (halfLifeDays : ℚ) : List ScoredMemory :=
  let fetchCount := min (nResults * 3) 50
  let pairs := vectorSearch fetchCount
  let scored := pairs.map (scoreEntry pow2 age useTimeDecay useEmotionBoost halfLifeDays)
  let reranked :=
    if enableBm25 && !scored.isEmpty then
      scored.map (fun sr =>
        { sr with final_score :=
            sr.final_score - bm25Boost bm25Scores reading query sr.memory })
    else scored
  (sortAscBy (fun sr => sr.final_score) reranked).take nResults

theorem length_insertDescBy {α : Type} (key : α → ℚ) (x : α) (l : List α) :
    (insertDescBy key x l).length = l.length + 1 := by
  induction l with
  | nil => rfl
  | cons y ys ih =>
    rw [insertDescBy]
    by_cases h : key x < key y
    · rw [if_pos h]; simp [ih]
    · rw [if_neg h]; rfl

theorem length_sortDescBy {α : Type} (key : α → ℚ) (l : List α) :
    (sortDescBy key l).length = l.length := by
  induction l with
  | nil => rfl
  | cons x xs ih => rw [sortDescBy, length_insertDescBy, ih]; rfl

/-- C4: `search_with_scoring` draws its candidates from a `3 × n_results`
over-fetch capped at 50, returns them sorted ascending by final score and
truncated to `n_results`, and every returned candidate's final score is
`max(0, distance·1.0 + (1−decay)·0.3 − (emotionBoost·0.2 + importanceBoost·0.2))`
— with `decay = 2^(−age_days/half_life)` clamped to [0,1] — minus the
optional lexical-overlap/reading boost. -/
theorem search_with_scoring_spec (vectorSearch : Nat → List (Memory × ℚ))
    (pow2 : ℚ → ℚ) (age : Memory → Option ℚ)
    (enableBm25 : Bool) (bm25Scores : String → ℚ) (reading : String → Option String)
    (query : String) (nResults : Nat) (useTimeDecay useEmotionBoost : Bool)
    (halfLifeDays : ℚ) :
    (search_with_scoring vectorSearch pow2 age enableBm25 bm25Scores reading query
        nResults useTimeDecay useEmotionBoost halfLifeDays).length
      = min nResults (vectorSearch (min (nResults * 3) 50)).length
    ∧ List.Pairwise (fun a b => a.final_score ≤ b.final_score)
        (search_with_scoring vectorSearch pow2 age enableBm25 bm25Scores reading query
          nResults useTimeDecay useEmotionBoost halfLifeDays)
    ∧ ∀ sr ∈ search_with_scoring vectorSearch pow2 age enableBm25 bm25Scores reading query
          nResults useTimeDecay useEmotionBoost halfLifeDays,
        ∃ pr ∈ vectorSearch (min (nResults * 3) 50),
          sr.memory = pr.1 ∧ sr.semantic_distance = pr.2
          ∧ sr.final_score =
              max 0 (pr.2 * 1
                + (1 - (if useTimeDecay then
                    calculate_time_decay pow2 (age pr.1) halfLifeDays else 1)) * (3/10)
                - ((if useEmotionBoost then calculate_emotion_boost pr.1.emotion else 0) * (1/5)
                  + calculate_importance_boost pr.1.importance * (1/5)))
              - (if enableBm25 then bm25Boost bm25Scores reading query pr.1 else 0) := by
  rw [search_with_scoring]
  set pairs := vectorSearch (min (nResults * 3) 50) with hpairs
  set scored := pairs.map (scoreEntry pow2 age useTimeDecay useEmotionBoost halfLifeDays)
    with hscored
  set reranked :=
    (if enableBm25 && !scored.isEmpty then
      scored.map (fun sr =>
        { sr with final_score :=
            sr.final_score - bm25Boost bm25Scores reading query sr.memory })
    else scored) with hreranked
  have hlenre : reranked.length = pairs.length := by
    rw [hreranked]
    by_cases hb : (enableBm25 && !scored.isEmpty) = true
    · rw [if_pos hb, List.length_map, hscored, List.length_map]
    · rw [if_neg hb, hscored, List.length_map]
  refine ⟨?_, ?_, ?_⟩
  · rw [List.length_take, sortAscBy, length_sortDescBy, hlenre]
  · have hsorted := pairwise_sortDescBy (fun sr : ScoredMemory => -(sr.final_score)) reranked
    have htake := hsorted.sublist
      (List.take_sublist nResults (sortDescBy (fun sr : ScoredMemory => -(sr.final_score)) reranked))
    exact htake.imp (fun h => by linarith)
  · intro sr hsr
    have hsr1 : sr ∈ sortAscBy (fun sr : ScoredMemory => sr.final_score) reranked :=
      (List.take_sublist _ _).mem hsr
    have hsr2 : sr ∈ reranked := (mem_sortDescBy _ _ _).mp hsr1
    have hnonempty : scored.isEmpty = false := by
      cases hsc : scored.isEmpty
      · rfl
      · exfalso
        have hnil : scored = [] := List.isEmpty_iff.mp hsc
        rw [hreranked, hnil] at hsr2
        cases hb : enableBm25 <;> rw [hb] at hsr2 <;> simp at hsr2
    cases hb : enableBm25 with
    | true =>
      have hcond : (enableBm25 && !scored.isEmpty) = true := by rw [hb, hnonempty]; rfl
      rw [hreranked, if_pos hcond] at hsr2
      rcases List.mem_map.mp hsr2 with ⟨base, hbase, rfl⟩
      rcases List.mem_map.mp (hscored ▸ hbase) with ⟨pr, hpr, rfl⟩
      refine ⟨pr, hpr, rfl, rfl, ?_⟩
      simp [scoreEntry, calculate_final_score]
    | false =>
      have hcond : (enableBm25 && !scored.isEmpty) = false := by rw [hb]; rfl
      rw [hreranked, if_neg (by simp [hcond])] at hsr2
      rcases List.mem_map.mp (hscored ▸ hsr2) with ⟨pr, hpr, rfl⟩
      refine ⟨pr, hpr, rfl, rfl, ?_⟩
      simp [scoreEntry, calculate_final_score]

/-! ## Predictive scoring (predictive.py) and workspace selection (workspace.py) -/

/-- A word character of the `\w+` token pattern (ASCII core of the
unicode-aware regex): alphanumeric or underscore. -/
def isWordChar (c : Char) : Bool := c.isAlphanum || c = '_'

/-- The maximal word-character runs of a string, lowercased
(`TOKEN_PATTERN.findall` plus `.lower()` in `tokenize`). -/
def tokenRuns (s : String) : List String :=
  let r := s.toList.foldl
    (fun (acc : List String × List Char) c =>
      if isWordChar c then (acc.1, acc.2 ++ [c.toLower])
      else if acc.2 = [] then acc
      else (acc.1 ++ [String.mk acc.2], []))
    ([], [])
  if r.2 = [] then r.1 else r.1 ++ [String.mk r.2]

/-- Python `set` formation, as first-occurrence deduplication. -/
def dedupFirst (l : List String) : List String :=
  l.foldl (fun acc t => if t ∈ acc then acc else acc ++ [t]) []

/-- `tokenize` (predictive.py): the set of lowercased word tokens. -/
def tokenize (s : String) : List String := dedupFirst (tokenRuns s)

/-- Set union of token sets (insertion-ordered). -/
def unionTokens (a b : List String) : List String :=
  a ++ b.filter (fun t => !(a.contains t))

/-- Size of the intersection of two token sets. -/
def interCount (a b : List String) : Nat := (a.filter (fun t => b.contains t)).length

/-- `memory_tokens` (predictive.py): content, category and tag tokens. -/
def memory_tokens (m : Memory) : List String :=
  m.tags.foldl (fun acc tag => unionTokens acc (tokenize tag))
    (unionTokens (tokenize m.content) (tokenize m.category))

/-- `calculate_context_relevance` (predictive.py): token Jaccard in [0,1]. -/
def calculate_context_relevance (context : String) (m : Memory) : ℚ :=
  let ctx := tokenize context
  if ctx = [] then 0
  else
    let mem := memory_tokens m
    if mem = [] then 0
    else
      let overlap := interCount ctx mem
      let union := (unionTokens ctx mem).length
      if union = 0 then 0 else (overlap : ℚ) / (union : ℚ)

/-- `calculate_prediction_error` (predictive.py). -/
def calculate_prediction_error (context : String) (m : Memory) : ℚ :=
  1 - calculate_context_relevance context m

/-- `calculate_novelty_score` (predictive.py). -/
def calculate_novelty_score (m : Memory) (predictionError : ℚ) : ℚ :=
  let activationNovelty : ℚ := 1 / (1 + (m.activation_count : ℚ))
  max 0 (min 1 ((3/5) * activationNovelty + (2/5) * max 0 (min 1 predictionError)))

structure WorkspaceCandidate where
  memory : Memory
  relevance : ℚ
  novelty : ℚ
  prediction_error : ℚ
  emotion_boost : ℚ

/-- `_candidate_utility` (workspace.py). -/
def candidate_utility (c : WorkspaceCandidate) (redundancyPenalty temperature : ℚ) : ℚ :=
  let temp := max (1/10) (min 2 temperature)
  ((9/20) * c.relevance + (1/5) * c.novelty + (1/5) * c.prediction_error
    + (3/20) * c.emotion_boost - (1/4) * redundancyPenalty) / temp

/-- `max` of a nonempty list (Python's `max`); 0 on the empty list, which the
callers guard against. -/
def maxList : List ℚ → ℚ
  | [] => 0
  | x :: xs => xs.foldl max x

/-- `_redundancy_penalty` (workspace.py): the largest token-Jaccard overlap
against the already-selected memories. -/
def redundancy_penalty (m : Memory) (selected : List Memory) : ℚ :=
  if selected = [] then 0
  else
    let targetTokens := memory_tokens m
    if targetTokens = [] then 0
    else
      let overlaps := selected.foldl
        (fun acc item =>
          let itemTokens := memory_tokens item
          if itemTokens = [] then acc
          else
            let union := unionTokens targetTokens itemTokens
            if union = [] then acc
            else acc ++ [(interCount targetTokens itemTokens : ℚ) / (union.length : ℚ)])
        []
      if overlaps = [] then 0 else maxList overlaps

/-- The winner-take-all loop of `select_workspace_candidates` (workspace.py):
each round scores every remaining candidate, Python's stable descending sort
puts the earliest argmax first, and every candidate sharing the winner's
memory id is removed from the pool. -/
def selectGo (temperature : ℚ) :
    Nat → List WorkspaceCandidate → List Memory → List (WorkspaceCandidate × ℚ) →
    List (WorkspaceCandidate × ℚ)
  | 0, _, _, acc => acc
  | k + 1, remaining, chosen, acc =>
    match remaining with
    | [] => acc
    | _ :: _ =>
      let scored := remaining.map
        (fun c => (c, candidate_utility c (redundancy_penalty c.memory chosen) temperature))
      match sortDescBy (fun p => p.2) scored with
      | [] => acc
      | best :: _ =>
        selectGo temperature k
          (remaining.filter (fun c => c.memory.id != best.1.memory.id))
          (chosen ++ [best.1.memory]) (acc ++ [best])

/-- `select_workspace_candidates` (workspace.py). -/
def select_workspace_candidates (candidates : List WorkspaceCandidate)
    (maxResults : Nat) (temperature : ℚ) : List (WorkspaceCandidate × ℚ) :=
  if maxResults = 0 ∨ candidates.isEmpty then []
  else selectGo temperature maxResults candidates [] []

/-- One `1 - overlap` term of `diversity_score` (0 when the union is empty,
as the Python loop appends 0.0 then). -/
def pairDiversity (left right : Memory) : ℚ :=
  let leftTokens := memory_tokens left
  let rightTokens := memory_tokens right
  let union := unionTokens leftTokens rightTokens
  if union = [] then 0
  else 1 - (interCount leftTokens rightTokens : ℚ) / (union.length : ℚ)

/-- All ordered pairs `(i, j)` with `i < j` of `diversity_score`'s loops. -/
def pairScores : List Memory → List ℚ
  | [] => []
  | l :: rest => rest.map (fun r => pairDiversity l r) ++ pairScores rest

/-- `diversity_score` (workspace.py): mean pairwise diversity. -/
def diversity_score (memories : List Memory) : ℚ :=
  if memories.length ≤ 1 then 0
  else
    let ps := pairScores memories
    if ps = [] then 0 else ps.sum / (ps.length : ℚ)

/-! ## `recall_divergent` (store.py) -/

structure DivergentDiagnostics where
  context : String
  branches_used : Nat
  depth_used : Nat
  adaptive_branch_limit : Nat
  adaptive_depth_limit : Nat
  traversed_edges : Nat
  expanded_nodes : Nat
  avg_branching_factor : ℚ
  selected_count : Nat
  diversity_value : ℚ
  avg_prediction_error : ℚ
  avg_novelty : ℚ

/-- The `all_candidates` dict insertion of `recall_divergent`: keyed by
memory id, first-insertion order, later values overwrite in place. -/
def dictInsertMemory (acc : List Memory) (m : Memory) : List Memory :=
  if acc.any (fun x => x.id == m.id) then acc.map (fun x => if x.id == m.id then m else x)
  else acc ++ [m]

/-- Steps (4)–(8) of `MemoryStore.recall_divergent` (store.py), after the
association spread: feature computation over seeds ∪ expanded, workspace
selection, conversion of utilities to pseudo-distances `max(0, 1 − utility)`,
and `_build_divergent_diagnostics`.  The optional activation recording only
writes store state and does not feed back into the returned values, so it is
not threaded here. -/
def recall_divergent_select (context : String) (seeds : List (Memory × ℚ))
    (expanded : List Memory) (assocDiag : AssociationDiagnostics)
    (branchLimit depthLimit : Nat) (nResults : Nat) (temperature : ℚ)
    (includeDiagnostics : Bool) :
    List (Memory × ℚ) × Option DivergentDiagnostics :=
  let seedMemories := seeds.map (fun p => p.1)
  let distanceOf := fun (i : String) => (seeds.find? (fun p => p.1.id == i)).map (fun p => p.2)
  let allCandidates := (seedMemories ++ expanded).foldl dictInsertMemory []
  let features := allCandidates.map (fun memory =>
    let relevance :=
      match distanceOf memory.id with
      | none => calculate_context_relevance context memory
      | some d => 1 / (1 + max 0 d)
    let predictionError := calculate_prediction_error context memory
    let novelty := calculate_novelty_score memory predictionError
    let normalizedEmotion := max 0 (min 1 (calculate_emotion_boost memory.emotion / (2/5)))
    (({ memory := memory, relevance := relevance, novelty := novelty,
        prediction_error := predictionError, emotion_boost := normalizedEmotion }
        : WorkspaceCandidate), predictionError, novelty))
  let workspaceCandidates := features.map (fun f => f.1)
  let predictionErrors := features.map (fun f => f.2.1)
  let noveltyScores := features.map (fun f => f.2.2)
  let selected := select_workspace_candidates workspaceCandidates nResults temperature
  let results := selected.map (fun p => (p.1.memory, max 0 (1 - p.2)))
  let selectedMemories := selected.map (fun p => p.1.memory)
  if includeDiagnostics then
    (results, some
      { context := context, branches_used := assocDiag.branches_used,
        depth_used := assocDiag.depth_used, adaptive_branch_limit := branchLimit,
        adaptive_depth_limit := depthLimit, traversed_edges := assocDiag.traversed_edges,
        expanded_nodes := assocDiag.expanded_nodes,
        avg_branching_factor := assocDiag.avg_branching_factor,
        selected_count := selectedMemories.length,
        diversity_value := diversity_score selectedMemories,
        avg_prediction_error :=
          if predictionErrors = [] then 0
          else predictionErrors.sum / (predictionErrors.length : ℚ),
        avg_novelty :=
          if noveltyScores = [] then 0
          else noveltyScores.sum / (noveltyScores.length : ℚ) })
  else (results, none)

/-- C2 (the part of the pipeline that is well-typed): whenever diagnostics
are produced, `diagnostics.selected_count` equals the number of returned
results — both are the length of the workspace selection. -/
theorem recall_divergent_selected_count (context : String) (seeds : List (Memory × ℚ))
    (expanded : List Memory) (assocDiag : AssociationDiagnostics)
    (branchLimit depthLimit : Nat) (nResults : Nat) (temperature : ℚ) :
    (recall_divergent_select context seeds expanded assocDiag branchLimit depthLimit
        nResults temperature true).2.map (fun d => d.selected_count)
      = some (recall_divergent_select context seeds expanded assocDiag branchLimit depthLimit
          nResults temperature true).1.length := by
  rw [recall_divergent_select]
  simp

/-! ## Consolidation (consolidation.py) -/

/-- `MemoryStore.record_activation` (store.py): increment the activation
count from the fetched row, stamp `last_activated`, clamp and store the
prediction error when one is given; `false` on a missing id. -/
def record_activation (mems : List Memory) (nowStr memoryId : String)
    (predictionError : Option ℚ) : Bool × List Memory :=
  match fetchMemoryById mems memoryId with
  | none => (false, mems)
  | some m =>
    let clamped := predictionError.map (fun v => max 0 (min 1 v))
    (true, mems.map (fun x =>
      if x.id = memoryId then
        { x with activation_count := m.activation_count + 1, last_activated := nowStr,
                 prediction_error := clamped.getD x.prediction_error }
      else x))

/-- `MemoryStore.maybe_add_related_link` (store.py): promote a coactivation
weight at or above the threshold into a persistent "related" link. -/
def maybe_add_related_link (mems : List Memory) (coact : CoactTable)
    (sourceId targetId : String) (threshold : ℚ) (nowStr : String) :
    Except String (Bool × List Memory) :=
  match lookupWeight coact sourceId targetId with
  | none => .ok (false, mems)
  | some w =>
    if w < threshold then .ok (false, mems)
    else
      match add_causal_link mems sourceId targetId "related" nowStr
          (some "auto-linked by consolidation replay") with
      | .error e => .error e
      | .ok mems2 => .ok (true, mems2)

structure ConsolidationStats where
  replay_events : Nat
  coactivation_updates : Nat
  link_updates : Nat
  refreshed_memories : Nat
  deriving DecidableEq

/-- `_is_after` (consolidation.py): unparsable timestamps are excluded. -/
def isAfter (parseTs : String → Option ℚ) (cutoff : ℚ) (m : Memory) : Bool :=
  match parseTs m.timestamp with
  | none => false
  | some t => decide (cutoff ≤ t)

/-- The set of refreshed ids (`refreshed_ids.add`). -/
def addId (l : List String) (i : String) : List String :=
  if l.contains i then l else l ++ [i]

structure ReplayAcc where
  replay : Nat
  coactUpd : Nat
  linkUpd : Nat
  refreshed : List String
  mems : List Memory
  coact : CoactTable

/-- One iteration of the replay loop of `ConsolidationEngine.run`
(consolidation.py) over a consecutive pair: once the replay budget is spent
the remaining iterations do nothing (the `break`). -/
def replayStep (nowStr : String) (maxReplayEvents : Nat) (linkUpdateStrength : ℚ)
    (acc : ReplayAcc) (pair : Memory × Memory) : Except String ReplayAcc :=
  if maxReplayEvents ≤ acc.replay then .ok acc
  else
    let left := pair.1
    let right := pair.2
    let delta := max (1/20) (min 1 linkUpdateStrength)
    let b := bump_coactivation acc.mems acc.coact left.id right.id delta
    let leftError := max 0 (left.prediction_error * (9/10))
    let rightError := max 0 (right.prediction_error * (9/10))
    let r1 := record_activation acc.mems nowStr left.id (some leftError)
    let r2 := record_activation r1.2 nowStr right.id (some rightError)
    let refreshed := addId (addId acc.refreshed left.id) right.id
    match maybe_add_related_link r2.2 b.2 left.id right.id (3/5) nowStr with
    | .error e => .error e
    | .ok fm =>
      .ok { replay := acc.replay + 1, coactUpd := acc.coactUpd + 2,
            linkUpd := acc.linkUpd + (if fm.1 then 1 else 0),
            refreshed := refreshed, mems := fm.2, coact := b.2 }

/-- `ConsolidationEngine.run` (consolidation.py) /
`MemoryStore.consolidate_memories`: filter the recently listed memories to
the time window (`recent` is what `store.list_recent` returned; `now` is the
current time in epoch seconds, `parseTs` the ISO-timestamp parse), return
the zero-replay result when fewer than 2 memories are eligible, otherwise
replay consecutive pairs. -/
def consolidation_run (parseTs : String → Option ℚ) (now : ℚ) (nowStr : String)
    (mems : List Memory) (coact : CoactTable) (recent : List Memory)
    (windowHours : ℚ) (maxReplayEvents : Nat) (linkUpdateStrength : ℚ) :
    Except String (ConsolidationStats × List Memory × CoactTable) :=
  let cutoff := now - 3600 * max 1 windowHours
  let eligible := recent.filter (isAfter parseTs cutoff)
  if eligible.length < 2 then .ok (⟨0, 0, 0, eligible.length⟩, mems, coact)
  else
    match (eligible.zip eligible.tail).foldlM
        (replayStep nowStr maxReplayEvents linkUpdateStrength)
        ⟨0, 0, 0, [], mems, coact⟩ with
    | .error e => .error e
    | .ok acc =>
      .ok (⟨acc.replay, acc.coactUpd, acc.linkUpd, acc.refreshed.length⟩, acc.mems, acc.coact)

/-- C6 (amended): with fewer than 2 eligible memories in the window,
`consolidate_memories` performs no replay and changes no stored state, and
the replay/coactivation/link counts are all zero; the reported
`refreshed_memories` count, however, is the number of eligible memories
(0 or 1), not necessarily 0. -/
theorem consolidation_run_lt2_noop (parseTs : String → Option ℚ) (now : ℚ)
    (nowStr : String) (mems : List Memory) (coact : CoactTable)
    (recent : List Memory) (windowHours : ℚ) (maxReplayEvents : Nat)
    (linkUpdateStrength : ℚ)
    (h : (recent.filter (isAfter parseTs (now - 3600 * max 1 windowHours))).length < 2) :
    consolidation_run parseTs now nowStr mems coact recent windowHours
        maxReplayEvents linkUpdateStrength
      = .ok (⟨0, 0, 0,
          (recent.filter (isAfter parseTs (now - 3600 * max 1 windowHours))).length⟩,
          mems, coact) := by
  rw [consolidation_run]
  exact if_pos h

theorem isAfter_demo :
    isAfter (fun _ => some 0) ((0 : ℚ) - 3600 * max 1 24) (memNeutral "A") = true := by
  rw [isAfter]
  norm_num

theorem filter_demo :
    List.filter (isAfter (fun _ => some 0) ((0 : ℚ) - 3600 * max 1 24)) [memNeutral "A"]
      = [memNeutral "A"] := by
  rw [List.filter_cons, isAfter_demo]
  rfl

/-- Witness for C6 at a one-memory store whose single memory is eligible. -/
theorem consolidation_run_lt2_noop_witness :
    consolidation_run (fun _ => some 0) 0 "t" [memNeutral "A"] [] [memNeutral "A"]
        24 200 (1/5)
      = .ok (⟨0, 0, 0,
          (([memNeutral "A"]).filter (isAfter (fun _ => some 0) ((0 : ℚ) - 3600 * max 1 24))).length⟩,
          [memNeutral "A"], []) := by
  refine consolidation_run_lt2_noop (fun _ => some 0) 0 "t" [memNeutral "A"] []
    [memNeutral "A"] 24 200 (1/5) ?_
  rw [filter_demo]
  norm_num

/-- Counterexample for C6 as frozen: at a store holding exactly one eligible
memory, the returned `refreshed_memories` count is 1, not 0, so not all
counts of the no-op result are zero. -/
theorem consolidation_run_lt2_refreshed_one :
    (consolidation_run (fun _ => some 0) 0 "t" [memNeutral "A"] [] [memNeutral "A"]
        24 200 (1/5)).toOption.map (fun r => r.1.refreshed_memories) = some 1
    ∧ (1 : Nat) ≠ 0 := by
  have hlen : (List.filter (isAfter (fun _ => some 0) ((0 : ℚ) - 3600 * max 1 24))
      [memNeutral "A"]).length < 2 := by
    rw [filter_demo]
    norm_num
  have hrun : consolidation_run (fun _ => some 0) 0 "t" [memNeutral "A"] []
      [memNeutral "A"] 24 200 (1/5)
      = .ok (⟨0, 0, 0,
          (List.filter (isAfter (fun _ => some 0) ((0 : ℚ) - 3600 * max 1 24))
            [memNeutral "A"]).length⟩,
          [memNeutral "A"], []) := by
    rw [consolidation_run]
    exact if_pos hlen
  refine ⟨?_, by decide⟩
  rw [hrun, filter_demo]
  rfl

end MemoryMcp
